import Mathlib

/-!
Shallow embedding of `video_to_audio.py`, a batch video-to-MP3 converter.

Paths are modelled as lists of components (`List String`), matching the
component view of Python `pathlib.Path` (a relative path `.` has an empty
component list, and `/` concatenates component lists).  The filesystem walk
(`os.walk`) is modelled over an explicit directory tree.  The external
`ffmpeg` subprocess is modelled by an oracle giving, for each file, the
outcome of `subprocess.run` (either a completed process with a return code
and captured stderr, or a raised exception).  Existence checks on disk are
modelled by a boolean oracle over paths.
-/

namespace VideoToAudio

/-- The allow-list of video extensions (`VIDEO_EXTENSIONS` in the source). -/
def VIDEO_EXTENSIONS : List String :=
  [".mp4", ".avi", ".mov", ".mkv", ".flv", ".wmv", ".webm"]

/-- Index of the last occurrence of `'.'` in a character list, as computed by
Python `str.rfind('.')` (restricted to the found case; `none` means `-1`). -/
def rfindDot : List Char → Option Nat
  | [] => none
  | c :: cs =>
    match rfindDot cs with
    | some i => some (i + 1)
    | none => if c = '.' then some 0 else none

/-- `pathlib.PurePath.suffix` on a single file name: the substring from the
last dot on, but only when that dot is neither the first nor the last
character; otherwise the empty string. -/
def pySuffix (name : String) : String :=
  match rfindDot name.data with
  | some i => if 0 < i ∧ i < name.data.length - 1 then ⟨name.data.drop i⟩ else ""
  | none => ""

/-- `pathlib.PurePath.stem` on a single file name: the part before the suffix
(the whole name when the suffix is empty). -/
def pyStem (name : String) : String :=
  match rfindDot name.data with
  | some i => if 0 < i ∧ i < name.data.length - 1 then ⟨name.data.take i⟩ else name

  | none => name

/-- Python `str.lower` (on the ASCII extension strings the program compares):
lowercase every character. -/
def pyLower (s : String) : String := ⟨s.data.map Char.toLower⟩

/-- The candidate test of `process_videos`:
`file_ext = file_path.suffix.lower()` followed by
`file_ext in VIDEO_EXTENSIONS`. -/
def isVideoCandidate (name : String) : Bool :=
  VIDEO_EXTENSIONS.contains (pyLower (pySuffix name))

/-- A directory tree rooted at the source directory: a name, the
subdirectories, and the plain file names directly inside it. -/
inductive FileTree where
  | node (dirname : String) (subdirs : List FileTree) (files : List String)

/-- The name of a tree's root directory. -/
def FileTree.name : FileTree → String
  | .node n _ _ => n

mutual
/-- `os.walk` from a directory whose path relative to the source root is
`rel`: yields, top-down, each directory's relative path together with the
file names directly inside it. -/
def walkAux (rel : List String) : FileTree → List (List String × List String)
  | .node _ subs files => (rel, files) :: walkList rel subs

/-- Walk each tree of `ts`, whose parent has relative path `rel`. -/
def walkList (rel : List String) : List FileTree → List (List String × List String)
  | [] => []
  | t :: ts => walkAux (rel ++ [t.name]) t ++ walkList rel ts
end

/-- `os.walk(source_path)` with every `dirpath` already taken relative to the
source root (the only form in which the program uses it). -/
def walk (t : FileTree) : List (List String × List String) := walkAux [] t

mutual
/-- The relative paths of all directories in the tree rooted at `rel`
(including `rel` itself). -/
def dirsAux (rel : List String) : FileTree → List (List String)
  | .node _ subs _ => rel :: dirsList rel subs

/-- Relative paths of all directories in each tree of `ts`. -/
def dirsList (rel : List String) : List FileTree → List (List String)
  | [] => []
  | t :: ts => dirsAux (rel ++ [t.name]) t ++ dirsList rel ts
end

/-- The set of relative paths of every directory under the source root,
the root itself included (as the empty component list). -/
def dirsOf (t : FileTree) : List (List String) := dirsAux [] t

/-- Events observable in a run: creation of the output root, creation of a
mirrored subdirectory, one conversion attempt, or a logged error. -/
inductive Ev where
  | mkdirOut (p : List String)
  | mkdirSub (rel : List String)
  | convert (rel : List String) (fn : String) (dst : List String) (ok : Bool)
  | logError (msg : String)
deriving DecidableEq

/-- Whether an event is the creation of a mirrored subdirectory. -/
def Ev.isMkdirSub : Ev → Bool
  | .mkdirSub _ => true
  | _ => false

/-- Whether an event is a conversion attempt. -/
def Ev.isConvert : Ev → Bool
  | .convert _ _ _ _ => true
  | _ => false

/-- `recreate_directory_structure`: walk the source tree and create, under
the output root, the mirror of each walked directory whose relative path is
not `.` (the root itself). -/
def recreate_directory_structure (t : FileTree) : List Ev :=
  (walk t).filterMap fun e => if e.1 = [] then none else some (Ev.mkdirSub e.1)

/-- Outcome of `subprocess.run(cmd, ...)`: either the process completed with
a return code and captured stderr, or an exception was raised during the
invocation (e.g. `ffmpeg` absent). -/
inductive SpawnOutcome where
  | completed (returncode : Int) (stderr : String)
  | raised (msg : String)
deriving DecidableEq

/-- `convert_video_to_audio`, given the outcome of the spawned subprocess:
returns the boolean success together with the error messages it logs.  The
`raised` branch is the `except Exception` handler; the function has no
failure channel of its own. -/
def convert_video_to_audio (run : SpawnOutcome) : Bool × List String :=
  match run with
  | .completed rc err =>
    if rc ≠ 0 then (false, ["Conversion failed: " ++ err]) else (true, [])
  | .raised e => (false, ["Error during conversion: " ++ e])

/-- The files seen by the batch walk: each paired with the relative path of
its directory, in walk order. -/
def fileEntries (t : FileTree) : List (List String × String) :=
  (walk t).flatMap fun e => e.2.map fun fn => (e.1, fn)

/-- The destination audio path: `output_dir / rel_path / (stem + ".mp3")`. -/
def audioDest (out rel : List String) (fn : String) : List String :=
  out ++ rel ++ [pyStem fn ++ ".mp3"]

/-- The running state of the batch: the two counters and the trace of
conversion attempts so far. -/
structure BatchState where
  total : Nat
  successful : Nat
  trace : List Ev
deriving DecidableEq

/-- The body of the inner loop of `process_videos` for one file: skip it if
its lowercased suffix is not in the allow-list; otherwise bump the total,
attempt the conversion, and bump the success count if it succeeded. -/
def stepState (spawn : List String → String → SpawnOutcome) (out : List String)
    (st : BatchState) (e : List String × String) : BatchState :=
  if isVideoCandidate e.2 then
    let dst := audioDest out e.1 e.2
    let ok := (convert_video_to_audio (spawn e.1 e.2)).1
    { total := st.total + 1
      successful := if ok then st.successful + 1 else st.successful
      trace := st.trace ++ [Ev.convert e.1 e.2 dst ok] }
  else st

/-- `process_videos`: fold the per-file step over all files in walk order,
starting from zeroed counters. -/
def process_videos (spawn : List String → String → SpawnOutcome)
    (out : List String) (t : FileTree) : BatchState :=
  (fileEntries t).foldl (stepState spawn out) ⟨0, 0, []⟩

/-- `Path.mkdir(exist_ok=...)` over an existence oracle: raises
`FileExistsError` exactly when the path exists and `exist_ok` is false. -/
def mkdir (fs : List String → Bool) (p : List String) (exist_ok : Bool) :
    Except String (List String → Bool) :=
  if fs p then
    if exist_ok then .ok fs else .error "FileExistsError"
  else .ok fun q => if q = p then true else fs q

/-- `create_output_directory`: candidate is `parent / (name + "_audio")`;
if it exists on disk, switch to `parent / (name + "_audio_" + timestamp)`;
then `mkdir(exist_ok=True)`.  Returns the updated filesystem and the chosen
output directory. -/
def create_output_directory (fs : List String → Bool) (timestamp : String)
    (src : List String) : Except String ((List String → Bool) × List String) :=
  let parent := src.dropLast
  let base_name := src.getLastD "" ++ "_audio"
  let cand := parent ++ [base_name]
  let output_dir :=
    if fs cand then parent ++ [base_name ++ "_" ++ timestamp] else cand
  (mkdir fs output_dir true).map fun fs2 => (fs2, output_dir)

/-- The path `create_output_directory` chooses, in isolation. -/
def chosenOutputDir (fs : List String → Bool) (timestamp : String)
    (src : List String) : List String :=
  let parent := src.dropLast
  let base_name := src.getLastD "" ++ "_audio"
  if fs (parent ++ [base_name]) then parent ++ [base_name ++ "_" ++ timestamp]
  else parent ++ [base_name]

/-- `main`: exit 1 with a logged error on a wrong argument count or a
non-directory argument; otherwise create the output root, mirror the
directory structure, then process the videos, and exit 0.  `srcPath` is the
component view of the source-directory argument and `t` the tree on disk
there; `spawn` is the subprocess oracle. -/
def main (argv : List String) (isdir : String → Bool) (srcPath : List String)
    (fs : List String → Bool) (timestamp : String) (t : FileTree)
    (spawn : List String → String → SpawnOutcome) : Nat × List Ev :=
  if argv.length ≠ 2 then
    (1, [Ev.logError "Usage: python video_to_audio.py <source_directory>"])
  else if isdir (argv.getD 1 "") = false then
    (1, [Ev.logError ("Source directory does not exist: " ++ argv.getD 1 "")])
  else
    match create_output_directory fs timestamp srcPath with
    | .ok (_, out) =>
      (0, Ev.mkdirOut out :: (recreate_directory_structure t
            ++ (process_videos spawn out t).trace))
    | .error e => (1, [Ev.logError e])

/-- One entry's contribution to the conversion trace of `process_videos`. -/
def entryTrace (spawn : List String → String → SpawnOutcome) (out : List String)
    (e : List String × String) : List Ev :=
  if isVideoCandidate e.2 then
    [Ev.convert e.1 e.2 (audioDest out e.1 e.2) ((convert_video_to_audio (spawn e.1 e.2)).1)]
  else []

mutual
theorem walkAux_map_fst (rel : List String) (t : FileTree) :
    (walkAux rel t).map Prod.fst = dirsAux rel t := by
  cases t with
  | node n subs files => simp [walkAux, dirsAux, walkList_map_fst]

theorem walkList_map_fst (rel : List String) (ts : List FileTree) :
    (walkList rel ts).map Prod.fst = dirsList rel ts := by
  cases ts with
  | nil => simp [walkList, dirsList]
  | cons t ts =>
    simp [walkList, dirsList, walkAux_map_fst, walkList_map_fst]
end

theorem walk_map_fst (t : FileTree) : (walk t).map Prod.fst = dirsOf t :=
  walkAux_map_fst [] t

theorem stepState_trace (spawn : List String → String → SpawnOutcome)
    (out : List String) (st : BatchState) (e : List String × String) :
    (stepState spawn out st e).trace = st.trace ++ entryTrace spawn out e := by
  unfold stepState entryTrace
  split <;> simp

theorem stepState_total (spawn : List String → String → SpawnOutcome)
    (out : List String) (st : BatchState) (e : List String × String) :
    (stepState spawn out st e).total
      = st.total + (if isVideoCandidate e.2 then 1 else 0) := by
  unfold stepState
  split <;> simp

theorem stepState_successful (spawn : List String → String → SpawnOutcome)
    (out : List String) (st : BatchState) (e : List String × String) :
    (stepState spawn out st e).successful
      = st.successful
        + (if isVideoCandidate e.2 && (convert_video_to_audio (spawn e.1 e.2)).1
           then 1 else 0) := by
  unfold stepState
  by_cases h : isVideoCandidate e.2 <;> simp [h]
  by_cases h2 : (convert_video_to_audio (spawn e.1 e.2)).1 <;> simp [h2]

theorem foldl_trace (spawn : List String → String → SpawnOutcome) (out : List String) :
    ∀ (l : List (List String × String)) (st : BatchState),
      (l.foldl (stepState spawn out) st).trace
        = st.trace ++ l.flatMap (entryTrace spawn out)
  | [], st => by simp
  | e :: l, st => by
    rw [List.foldl_cons, foldl_trace spawn out l, stepState_trace]
    simp

theorem foldl_total (spawn : List String → String → SpawnOutcome) (out : List String) :
    ∀ (l : List (List String × String)) (st : BatchState),
      (l.foldl (stepState spawn out) st).total
        = st.total + l.countP (fun e => isVideoCandidate e.2)
  | [], st => by simp
  | e :: l, st => by
    rw [List.foldl_cons, foldl_total spawn out l, stepState_total, List.countP_cons]
    by_cases h : isVideoCandidate e.2 <;> simp [h] <;> omega

theorem foldl_successful (spawn : List String → String → SpawnOutcome) (out : List String) :
    ∀ (l : List (List String × String)) (st : BatchState),
      (l.foldl (stepState spawn out) st).successful
        = st.successful
          + l.countP (fun e => isVideoCandidate e.2
              && (convert_video_to_audio (spawn e.1 e.2)).1)
  | [], st => by simp
  | e :: l, st => by
    rw [List.foldl_cons, foldl_successful spawn out l, stepState_successful,
      List.countP_cons]
    by_cases h : isVideoCandidate e.2 && (convert_video_to_audio (spawn e.1 e.2)).1 <;>
      simp [h] <;> omega

theorem stepState_mono (spawn : List String → String → SpawnOutcome)
    (out : List String) (st : BatchState) (e : List String × String)
    (h : st.successful ≤ st.total) :
    (stepState spawn out st e).successful ≤ (stepState spawn out st e).total := by
  rw [stepState_successful, stepState_total]
  by_cases hb : isVideoCandidate e.2
  · by_cases ho : (convert_video_to_audio (spawn e.1 e.2)).1 <;> simp [hb, ho] <;> omega
  · simp [hb]
    exact h

theorem scanl_inv (spawn : List String → String → SpawnOutcome) (out : List String) :
    ∀ (l : List (List String × String)) (st : BatchState),
      st.successful ≤ st.total →
      ∀ s ∈ List.scanl (stepState spawn out) st l, s.successful ≤ s.total
  | [], st, h => by simpa using h
  | e :: l, st, h => by
    intro s hs
    rw [List.scanl_cons] at hs
    rcases List.mem_cons.mp hs with rfl | hs
    · exact h
    · exact scanl_inv spawn out l _ (stepState_mono spawn out st e h) s hs

theorem process_trace (spawn : List String → String → SpawnOutcome)
    (out : List String) (t : FileTree) :
    (process_videos spawn out t).trace
      = (fileEntries t).flatMap (entryTrace spawn out) := by
  rw [process_videos, foldl_trace]
  rfl

theorem mem_process_trace (spawn : List String → String → SpawnOutcome)
    (out : List String) (t : FileTree) (e : Ev)
    (h : e ∈ (process_videos spawn out t).trace) :
    ∃ rel fn, (rel, fn) ∈ fileEntries t ∧ isVideoCandidate fn = true ∧
      e = Ev.convert rel fn (audioDest out rel fn)
            ((convert_video_to_audio (spawn rel fn)).1) := by
  rw [process_trace] at h
  rcases List.mem_flatMap.mp h with ⟨en, hen, he⟩
  unfold entryTrace at he
  by_cases hc : isVideoCandidate en.2 <;> simp [hc] at he
  exact ⟨en.1, en.2, hen, hc, he⟩

theorem mem_recreate_isMkdirSub (t : FileTree) (e : Ev)
    (h : e ∈ recreate_directory_structure t) : e.isMkdirSub = true := by
  rcases List.mem_filterMap.mp h with ⟨en, _, hen⟩
  by_cases h1 : en.1 = [] <;> simp [h1] at hen
  rw [← hen]
  rfl

theorem mkdirSub_mem_recreate (t : FileTree) (d : List String)
    (hd : d ∈ dirsOf t) (hne : d ≠ []) :
    Ev.mkdirSub d ∈ recreate_directory_structure t := by
  rw [← walk_map_fst] at hd
  rcases List.mem_map.mp hd with ⟨en, hen, rfl⟩
  exact List.mem_filterMap.mpr ⟨en, hen, by simp [hne]⟩

theorem isMkdirSub_not_isConvert (e : Ev) (h : e.isMkdirSub = true) :
    e.isConvert = false := by
  cases e <;> simp_all [Ev.isMkdirSub, Ev.isConvert]

theorem create_output_directory_ok (fs : List String → Bool) (ts : String)
    (src : List String) :
    ∃ fs2, create_output_directory fs ts src = .ok (fs2, chosenOutputDir fs ts src) := by
  simp only [create_output_directory, chosenOutputDir, mkdir]
  by_cases h : fs (src.dropLast ++ [src.getLastD "" ++ "_audio"]) = true
  · rw [if_pos h]
    split <;> exact ⟨_, rfl⟩
  · rw [if_neg h]
    split <;> exact ⟨_, rfl⟩

theorem main_valid (argv : List String) (isdir : String → Bool)
    (srcPath : List String) (fs : List String → Bool) (ts : String) (t : FileTree)
    (spawn : List String → String → SpawnOutcome)
    (h1 : argv.length = 2) (h2 : isdir (argv.getD 1 "") = true) :
    main argv isdir srcPath fs ts t spawn =
      (0, Ev.mkdirOut (chosenOutputDir fs ts srcPath)
        :: (recreate_directory_structure t
            ++ (process_videos spawn (chosenOutputDir fs ts srcPath) t).trace)) := by
  obtain ⟨fs2, hok⟩ := create_output_directory_ok fs ts srcPath
  unfold main
  rw [hok, if_neg (by omega), if_neg (by rw [h2]; simp)]

theorem split_order (tr : List Ev) (k : Nat)
    (h1 : ∀ e ∈ tr.take k, e.isConvert = false)
    (h2 : ∀ e ∈ tr.drop k, e.isMkdirSub = false) :
    ∀ i j : Fin tr.length, (tr.get i).isConvert = true →
      (tr.get j).isMkdirSub = true → (j : Nat) < (i : Nat) := by
  intro i j hi hj
  have hik : k ≤ (i : Nat) := by
    by_contra hlt
    push_neg at hlt
    have hmem : tr.get i ∈ tr.take k := by
      have hlen : (i : Nat) < (tr.take k).length := by
        simp only [List.length_take]
        omega
      have : (tr.take k).get ⟨(i : Nat), hlen⟩ = tr.get i := by
        simp [List.getElem_take]
      rw [← this]
      exact List.get_mem _ _ _
    have := h1 _ hmem
    rw [hi] at this
    exact Bool.true_eq_false.mp this
  have hjk : (j : Nat) < k := by
    by_contra hge
    push_neg at hge
    have hlen : (j : Nat) - k < (tr.drop k).length := by
      simp only [List.length_drop]
      omega
    have hmem : tr.get j ∈ tr.drop k := by
      have : (tr.drop k).get ⟨(j : Nat) - k, hlen⟩ = tr.get j := by
        simp only [List.get_eq_getElem, List.getElem_drop]
        congr 1
        omega
      rw [← this]
      exact List.get_mem _ _ _
    have := h2 _ hmem
    rw [hj] at this
    exact Bool.true_eq_false.mp this
  omega

theorem string_data_append (a b : String) : (a ++ b).data = a.data ++ b.data := rfl

theorem string_ext (a b : String) (h : a.data = b.data) : a = b := by
  cases a
  cases b
  exact congrArg String.mk h

theorem data_ne_nil (s : String) (h : s ≠ "") : s.data ≠ [] := by
  intro hd
  exact h (string_ext s "" hd)

theorem rfindDot_eq_none (l : List Char) (h : '.' ∉ l) : rfindDot l = none := by
  induction l with
  | nil => rfl
  | cons c cs ih =>
    simp only [List.mem_cons, not_or] at h
    have hc : ¬ c = '.' := fun hc => h.1 hc.symm
    simp [rfindDot, ih h.2, hc]

theorem rfindDot_append (s e : List Char) (h : '.' ∉ e) :
    rfindDot (s ++ '.' :: e) = some s.length := by
  induction s with
  | nil => simp [rfindDot, rfindDot_eq_none e h]
  | cons c cs ih => simp [rfindDot, ih]

theorem pySuffix_dotfile (name : String) (rest : List Char)
    (h : name.data = '.' :: rest) (hr : '.' ∉ rest) : pySuffix name = "" := by
  have hfind : rfindDot name.data = some 0 := by
    rw [h]
    have : rfindDot ('.' :: rest) = rfindDot ([] ++ '.' :: rest) := rfl
    rw [this, rfindDot_append [] rest hr]
    rfl
  simp [pySuffix, hfind]

theorem pyStem_append_ext (s e : String) (hs : s ≠ "") (he : e ≠ "")
    (hd : '.' ∉ e.data) :
    pyStem (s ++ "." ++ e) = s ∧ pySuffix (s ++ "." ++ e) = "." ++ e := by
  have hdata : (s ++ "." ++ e).data = s.data ++ '.' :: e.data := by
    rw [string_data_append, string_data_append]
    simp
  have hfind : rfindDot (s ++ "." ++ e).data = some s.data.length := by
    rw [hdata]
    exact rfindDot_append _ _ hd
  have hslen : 0 < s.data.length := List.length_pos.mpr (data_ne_nil s hs)
  have helen : 0 < e.data.length := List.length_pos.mpr (data_ne_nil e he)
  have hlen : (s ++ "." ++ e).data.length = s.data.length + 1 + e.data.length := by
    rw [hdata]
    simp [List.length_append]
    omega
  have hcond : 0 < s.data.length ∧ s.data.length < (s ++ "." ++ e).data.length - 1 := by
    refine ⟨hslen, ?_⟩
    omega
  constructor
  · rw [pyStem, hfind]
    dsimp only
    rw [if_pos hcond, hdata, List.take_left]
  · rw [pySuffix, hfind]
    dsimp only
    rw [if_pos hcond, hdata, List.drop_left]
    exact string_ext _ _ rfl

theorem audio_underscore (n ts : String) :
    (n ++ "_audio") ++ "_" ++ ts = n ++ "_audio_" ++ ts := by
  apply string_ext
  simp only [string_data_append, List.append_assoc]
  rfl

theorem create_not_exists (fs : List String → Bool) (ts : String) (src : List String)
    (h : fs (src.dropLast ++ [src.getLastD "" ++ "_audio"]) = false) :
    create_output_directory fs ts src
      = .ok (fun q => if q = src.dropLast ++ [src.getLastD "" ++ "_audio"] then true
                      else fs q,
             src.dropLast ++ [src.getLastD "" ++ "_audio"]) := by
  simp only [create_output_directory, mkdir]
  rw [if_neg (by rw [h]; simp), if_neg (by rw [h]; simp)]
  rfl

theorem create_exists (fs : List String → Bool) (ts : String) (src : List String)
    (h : fs (src.dropLast ++ [src.getLastD "" ++ "_audio"]) = true) :
    ∃ fs3, create_output_directory fs ts src
      = .ok (fs3, src.dropLast ++ [src.getLastD "" ++ "_audio" ++ "_" ++ ts]) := by
  simp only [create_output_directory, mkdir]
  rw [if_pos h]
  split
  · exact ⟨_, rfl⟩
  · exact ⟨_, rfl⟩

theorem countP_and_le (l : List (List String × String))
    (p q : (List String × String) → Bool) :
    l.countP (fun e => p e && q e) ≤ l.countP p := by
  induction l with
  | nil => simp
  | cons e l ih =>
    rw [List.countP_cons, List.countP_cons]
    by_cases hp : p e <;> by_cases hq : q e <;> simp [hp, hq] <;> omega

/-- C3: a file is classified as a Video File Candidate iff its extension,
lowercased, is in the fixed seven-element allow-list; classification is
case-insensitive (`CLIP.MP4` is classified identically to `clip.mp4`) and
depends only on the extension string. -/
theorem video_candidate_classification :
    (∀ n : String, isVideoCandidate n = true ↔
      pyLower (pySuffix n)
        ∈ ([".mp4", ".avi", ".mov", ".mkv", ".flv", ".wmv", ".webm"] : List String))
    ∧ (∀ a b : String, pyLower (pySuffix a) = pyLower (pySuffix b) →
        isVideoCandidate a = isVideoCandidate b)
    ∧ isVideoCandidate "CLIP.MP4" = isVideoCandidate "clip.mp4"
    ∧ isVideoCandidate "CLIP.MP4" = true := by
  refine ⟨fun n => ?_, fun a b h => ?_, by decide, by decide⟩
  · rw [isVideoCandidate, VIDEO_EXTENSIONS]
    exact List.elem_iff
  · rw [isVideoCandidate, isVideoCandidate, h]

/-- Witness for C3 at a concrete input. -/
theorem video_candidate_classification_witness :
    isVideoCandidate "CLIP.MP4" = isVideoCandidate "clip.mp4" :=
  video_candidate_classification.2.1 "CLIP.MP4" "clip.mp4" (by decide)

/-- C5: `convert_video_to_audio` returns true iff the subprocess exits with
status zero; a non-zero exit logs the captured stderr and returns false; a
raised exception (e.g. the tool being absent) is caught and yields false —
the function is total and never propagates a failure upward. -/
theorem convert_result :
    (∀ o : SpawnOutcome,
      (convert_video_to_audio o).1 = true ↔ ∃ e, o = SpawnOutcome.completed 0 e)
    ∧ (∀ (rc : Int) (err : String), rc ≠ 0 →
        convert_video_to_audio (SpawnOutcome.completed rc err)
          = (false, ["Conversion failed: " ++ err]))
    ∧ (∀ m : String,
        convert_video_to_audio (SpawnOutcome.raised m)
          = (false, ["Error during conversion: " ++ m])) := by
  refine ⟨fun o => ?_, fun rc err h => ?_, fun m => rfl⟩
  · cases o with
    | completed rc err =>
      by_cases h : rc = 0
      · subst h
        simp [convert_video_to_audio]
      · simp [convert_video_to_audio, h]
    | raised m => simp [convert_video_to_audio]
  · simp [convert_video_to_audio, h]

/-- Witness for C5 at a concrete input. -/
theorem convert_result_witness :
    convert_video_to_audio (SpawnOutcome.completed 1 "boom")
      = (false, ["Conversion failed: " ++ "boom"]) :=
  convert_result.2.1 1 "boom" (by decide)

/-- C9: a file whose whole name is a dot-prefixed extension string (such as
`.mp4`) has an empty computed suffix, is never classified as a candidate,
and its processing step changes no counter and produces no trace event. -/
theorem dotfile_never_candidate (name : String) (rest : List Char)
    (h : name.data = '.' :: rest) (hr : '.' ∉ rest) :
    isVideoCandidate name = false
    ∧ (∀ (spawn : List String → String → SpawnOutcome) (out : List String)
        (st : BatchState) (rel : List String),
        stepState spawn out st (rel, name) = st) := by
  have hsuf : pySuffix name = "" := pySuffix_dotfile name rest h hr
  have hcand : isVideoCandidate name = false := by
    rw [isVideoCandidate, hsuf]
    decide
  exact ⟨hcand, fun spawn out st rel => by simp [stepState, hcand]⟩

/-- Witness for C9 at the concrete input `.mp4`. -/
theorem dotfile_never_candidate_witness :
    isVideoCandidate ".mp4" = false :=
  (dotfile_never_candidate ".mp4" ['m', 'p', '4'] rfl (by decide)).1

/-- C2: the total counter counts exactly the candidate files seen by the walk
(regardless of conversion outcomes, so failures never abort the walk); the
success counter counts only candidates whose conversion succeeded; one step
on a candidate whose subprocess exits non-zero increments the total but not
the success counter; a non-candidate file changes nothing. -/
theorem conversion_failure_counting (spawn : List String → String → SpawnOutcome)
    (out : List String) (t : FileTree) :
    (process_videos spawn out t).total
        = (fileEntries t).countP (fun e => isVideoCandidate e.2)
    ∧ (process_videos spawn out t).successful
        = (fileEntries t).countP
            (fun e => isVideoCandidate e.2 && (convert_video_to_audio (spawn e.1 e.2)).1)
    ∧ (∀ (st : BatchState) (e : List String × String) (rc : Int) (err : String),
        spawn e.1 e.2 = SpawnOutcome.completed rc err → rc ≠ 0 →
        isVideoCandidate e.2 = true →
        (stepState spawn out st e).total = st.total + 1
          ∧ (stepState spawn out st e).successful = st.successful)
    ∧ (∀ (st : BatchState) (e : List String × String),
        isVideoCandidate e.2 = false → stepState spawn out st e = st) := by
  refine ⟨?_, ?_, ?_, ?_⟩
  · rw [process_videos, foldl_total]
    exact Nat.zero_add _
  · rw [process_videos, foldl_successful]
    exact Nat.zero_add _
  · intro st e rc err hsp hrc hc
    have hok : (convert_video_to_audio (spawn e.1 e.2)).1 = false := by
      rw [hsp]
      simp [convert_video_to_audio, hrc]
    rw [stepState_total, stepState_successful, hc, hok]
    simp
  · intro st e hc
    simp [stepState, hc]

/-- Witness for C2 at a concrete input. -/
theorem conversion_failure_counting_witness :
    (stepState (fun _ _ => SpawnOutcome.completed 1 "err") ["out"] ⟨3, 1, []⟩
        (["d"], "x.mp4")).total = 3 + 1
    ∧ (stepState (fun _ _ => SpawnOutcome.completed 1 "err") ["out"] ⟨3, 1, []⟩
        (["d"], "x.mp4")).successful = 1 :=
  (conversion_failure_counting (fun _ _ => SpawnOutcome.completed 1 "err") ["out"]
      (FileTree.node "s" [] [])).2.2.1 ⟨3, 1, []⟩ (["d"], "x.mp4") 1 "err" rfl
      (by decide) (by decide)

/-- C8: the counters start at zero, every intermediate state of the batch
walk satisfies `successful ≤ total`, and so does the final summary. -/
theorem counters_invariant (spawn : List String → String → SpawnOutcome)
    (out : List String) (t : FileTree) :
    (List.scanl (stepState spawn out) ⟨0, 0, []⟩ (fileEntries t)).head?
        = some ⟨0, 0, []⟩
    ∧ (∀ s ∈ List.scanl (stepState spawn out) ⟨0, 0, []⟩ (fileEntries t),
        s.successful ≤ s.total)
    ∧ (process_videos spawn out t).successful ≤ (process_videos spawn out t).total := by
  refine ⟨?_, scanl_inv spawn out _ _ (by simp), ?_⟩
  · cases h : fileEntries t <;> rfl
  · rw [process_videos, foldl_total, foldl_successful]
    exact Nat.add_le_add (Nat.le_refl 0) (countP_and_le _ _ _)

/-- Witness for C8 at a concrete input. -/
theorem counters_invariant_witness :
    (⟨0, 0, []⟩ : BatchState).successful ≤ (⟨0, 0, []⟩ : BatchState).total :=
  (counters_invariant (fun _ _ => SpawnOutcome.completed 1 "e") ["out"]
      (FileTree.node "s" [] ["a.mp4"])).2.1 ⟨0, 0, []⟩ (by decide)

/-- C4: every conversion event's destination is the output root joined with
the file's relative directory and its base name with only the final
extension replaced by `.mp3`; embedded dots are preserved
(`movie.final.mkv` at `a/b/` yields `a/b/movie.final.mp3`). -/
theorem destination_path (spawn : List String → String → SpawnOutcome)
    (out : List String) (t : FileTree) :
    (∀ e ∈ (process_videos spawn out t).trace, ∀ rel fn dst ok,
        e = Ev.convert rel fn dst ok → dst = out ++ rel ++ [pyStem fn ++ ".mp3"])
    ∧ (∀ s e : String, s ≠ "" → e ≠ "" → '.' ∉ e.data →
        pyStem (s ++ "." ++ e) = s ∧ pySuffix (s ++ "." ++ e) = "." ++ e)
    ∧ audioDest out ["a", "b"] "movie.final.mkv"
        = out ++ ["a", "b", "movie.final.mp3"] := by
  refine ⟨?_, pyStem_append_ext, ?_⟩
  · intro e he rel fn dst ok heq
    rcases mem_process_trace spawn out t e he with ⟨rel2, fn2, _, _, rfl⟩
    simp only [Ev.convert.injEq] at heq
    obtain ⟨rfl, rfl, rfl, rfl⟩ := heq
    rfl
  · have h : pyStem "movie.final.mkv" ++ ".mp3" = "movie.final.mp3" := rfl
    simp [audioDest, h]

/-- Witness for C4 at a concrete input. -/
theorem destination_path_witness :
    pyStem ("movie.final" ++ "." ++ "mkv") = "movie.final"
    ∧ pySuffix ("movie.final" ++ "." ++ "mkv") = "." ++ "mkv" :=
  (destination_path (fun _ _ => SpawnOutcome.completed 0 "") []
      (FileTree.node "s" [] [])).2.1 "movie.final" "mkv" (by decide) (by decide)
      (by decide)

/-- C10: a candidate file directly in the source root has relative directory
`.` (empty component list), so its destination is directly at the top level
of the output root. -/
theorem root_file_destination (spawn : List String → String → SpawnOutcome)
    (out : List String) (nm : String) (subs : List FileTree)
    (files : List String) (fn : String) (hfn : fn ∈ files) :
    ([], fn) ∈ fileEntries (FileTree.node nm subs files)
    ∧ audioDest out [] fn = out ++ [pyStem fn ++ ".mp3"]
    ∧ (∀ e ∈ (process_videos spawn out (FileTree.node nm subs files)).trace,
        ∀ fn2 dst ok, e = Ev.convert [] fn2 dst ok →
          dst = out ++ [pyStem fn2 ++ ".mp3"]) := by
  refine ⟨?_, by simp [audioDest], ?_⟩
  · rw [fileEntries, walk, walkAux]
    rw [List.flatMap_cons]
    exact List.mem_append_left _ (List.mem_map.mpr ⟨fn, hfn, rfl⟩)
  · intro e he fn2 dst ok heq
    rcases mem_process_trace spawn out (FileTree.node nm subs files) e he with
      ⟨rel2, fnx, _, _, rfl⟩
    simp only [Ev.convert.injEq] at heq
    obtain ⟨rfl, rfl, rfl, rfl⟩ := heq
    simp [audioDest]

/-- Witness for C10 at a concrete input. -/
theorem root_file_destination_witness :
    ([], "clip.mp4") ∈ fileEntries (FileTree.node "src" [] ["clip.mp4"]) :=
  (root_file_destination (fun _ _ => SpawnOutcome.completed 0 "") ["out"] "src" []
      ["clip.mp4"] "clip.mp4" (by decide)).1

/-- C1: on a valid run, the mirror of every directory under the source root
(excluding the root itself) is created, and every such creation event occurs
strictly before every conversion event in the run's trace — even when the
source contains zero video files. -/
theorem directory_mirror_before_conversion (argv : List String)
    (isdir : String → Bool) (srcPath : List String) (fs : List String → Bool)
    (ts : String) (t : FileTree) (spawn : List String → String → SpawnOutcome)
    (h1 : argv.length = 2) (h2 : isdir (argv.getD 1 "") = true) :
    (∀ d ∈ dirsOf t, d ≠ [] →
      Ev.mkdirSub d ∈ (main argv isdir srcPath fs ts t spawn).2)
    ∧ (∀ i j : Fin (main argv isdir srcPath fs ts t spawn).2.length,
        ((main argv isdir srcPath fs ts t spawn).2.get i).isConvert = true →
        ((main argv isdir srcPath fs ts t spawn).2.get j).isMkdirSub = true →
        (j : Nat) < (i : Nat)) := by
  rw [main_valid argv isdir srcPath fs ts t spawn h1 h2]
  constructor
  · intro d hd hne
    exact List.mem_cons_of_mem _
      (List.mem_append_left _ (mkdirSub_mem_recreate t d hd hne))
  · apply split_order _ ((recreate_directory_structure t).length + 1)
    · intro e he
      rw [List.take_succ_cons, List.take_left] at he
      rcases List.mem_cons.mp he with rfl | he
      · rfl
      · exact isMkdirSub_not_isConvert e (mem_recreate_isMkdirSub t e he)
    · intro e he
      rw [List.drop_succ_cons, List.drop_left] at he
      rcases mem_process_trace _ _ t e he with ⟨rel, fn, _, _, rfl⟩
      rfl

/-- Witness for C1 at a concrete input: a source tree with one subdirectory
and no video file at all still gets its subdirectory mirrored. -/
theorem directory_mirror_before_conversion_witness :
    Ev.mkdirSub ["clips"] ∈
      (main ["video_to_audio.py", "library"] (fun _ => true) ["library"]
        (fun _ => false) "20260101_000000"
        (FileTree.node "library" [FileTree.node "clips" [] ["notes.txt"]] [])
        (fun _ _ => SpawnOutcome.completed 0 "")).2 :=
  (directory_mirror_before_conversion ["video_to_audio.py", "library"]
      (fun _ => true) ["library"] (fun _ => false) "20260101_000000"
      (FileTree.node "library" [FileTree.node "clips" [] ["notes.txt"]] [])
      (fun _ _ => SpawnOutcome.completed 0 "") (by decide) rfl).1
    ["clips"] (by decide) (by decide)

/-- C6: the namer picks `parent/(name + "_audio")`, switching to
`parent/(name + "_audio_" + timestamp)` exactly when that path already
exists; creation tolerates pre-existence (it never fails); a second run
against the same source without deleting the first output yields a distinct,
timestamp-suffixed output root. -/
theorem output_directory_naming :
    (∀ (fs : List String → Bool) (ts : String) (src : List String),
      (∃ fs2, create_output_directory fs ts src
          = .ok (fs2, chosenOutputDir fs ts src))
      ∧ chosenOutputDir fs ts src
          = (if fs (src.dropLast ++ [src.getLastD "" ++ "_audio"]) = true
             then src.dropLast ++ [src.getLastD "" ++ "_audio_" ++ ts]
             else src.dropLast ++ [src.getLastD "" ++ "_audio"]))
    ∧ (∀ (fs fs2 fs3 : List String → Bool) (ts1 ts2 : String)
        (src p1 p2 : List String),
        fs (src.dropLast ++ [src.getLastD "" ++ "_audio"]) = false →
        create_output_directory fs ts1 src = .ok (fs2, p1) →
        create_output_directory fs2 ts2 src = .ok (fs3, p2) →
        p1 ≠ p2 ∧ p1 = src.dropLast ++ [src.getLastD "" ++ "_audio"]
          ∧ p2 = src.dropLast ++ [src.getLastD "" ++ "_audio_" ++ ts2]) := by
  constructor
  · intro fs ts src
    refine ⟨create_output_directory_ok fs ts src, ?_⟩
    rw [chosenOutputDir]
    by_cases h : fs (src.dropLast ++ [src.getLastD "" ++ "_audio"]) = true
    · rw [if_pos h, if_pos h, audio_underscore]
    · rw [if_neg h, if_neg h]
  · intro fs fs2 fs3 ts1 ts2 src p1 p2 hfree hc1 hc2
    rw [create_not_exists fs ts1 src hfree] at hc1
    injection hc1 with hpair
    injection hpair with hfs2 hp1
    have hfs2c : fs2 (src.dropLast ++ [src.getLastD "" ++ "_audio"]) = true := by
      rw [← hfs2]
      simp
    obtain ⟨fs4, h4⟩ := create_exists fs2 ts2 src hfs2c
    rw [h4] at hc2
    injection hc2 with hpair2
    injection hpair2 with hfs3 hp2
    have hp2' : p2 = src.dropLast ++ [src.getLastD "" ++ "_audio_" ++ ts2] := by
      rw [← hp2, audio_underscore]
    refine ⟨?_, hp1.symm, hp2'⟩
    rw [← hp1, ← hp2]
    intro heq
    have hlast : src.getLastD "" ++ "_audio"
        = src.getLastD "" ++ "_audio" ++ "_" ++ ts2 := by
      have := List.append_cancel_left heq
      simpa using this
    have hlen := congrArg String.length hlast
    rw [String.length_append (src.getLastD "" ++ "_audio" ++ "_") ts2,
      String.length_append (src.getLastD "" ++ "_audio") "_"] at hlen
    have hone : ("_" : String).length = 1 := rfl
    omega

/-- Witness for C6 at a concrete input: two consecutive runs on `/home/music`
starting from an empty disk produce distinct output roots. -/
theorem output_directory_naming_witness :
    (["home", "music_audio"] : List String) ≠ ["home", "music_audio_20260101_000000"]
    ∧ (["home", "music_audio"] : List String) = ["home", "music_audio"] :=
  ⟨(output_directory_naming.2 (fun _ => false)
      (fun q => if q = ["home", "music_audio"] then true else (fun _ => false) q)
      (fun q => if q = ["home", "music_audio_20260101_000000"] then true
                else if q = ["home", "music_audio"] then true else (fun _ => false) q)
      "20251231_235959" "20260101_000000" ["home", "music"]
      ["home", "music_audio"] ["home", "music_audio_20260101_000000"]
      rfl rfl rfl).1,
   ((output_directory_naming.2 (fun _ => false)
      (fun q => if q = ["home", "music_audio"] then true else (fun _ => false) q)
      (fun q => if q = ["home", "music_audio_20260101_000000"] then true
                else if q = ["home", "music_audio"] then true else (fun _ => false) q)
      "20251231_235959" "20260101_000000" ["home", "music"]
      ["home", "music_audio"] ["home", "music_audio_20260101_000000"]
      rfl rfl rfl).2).1⟩

/-- C7: the entry point exits with status 1 iff the argument count is wrong
or the argument is not an existing directory; on valid input it runs the
output namer, the directory mirror, and the batch driver in that strict
order and exits 0 regardless of conversion failures. -/
theorem main_exit_behavior (argv : List String) (isdir : String → Bool)
    (srcPath : List String) (fs : List String → Bool) (ts : String)
    (t : FileTree) (spawn : List String → String → SpawnOutcome) :
    ((main argv isdir srcPath fs ts t spawn).1 = 1 ↔
      (argv.length ≠ 2 ∨ isdir (argv.getD 1 "") = false))
    ∧ (argv.length = 2 → isdir (argv.getD 1 "") = true →
        main argv isdir srcPath fs ts t spawn
          = (0, Ev.mkdirOut (chosenOutputDir fs ts srcPath)
              :: (recreate_directory_structure t
                  ++ (process_videos spawn (chosenOutputDir fs ts srcPath) t).trace))) := by
  constructor
  · by_cases h1 : argv.length = 2
    · by_cases h2 : isdir (argv.getD 1 "") = true
      · rw [main_valid argv isdir srcPath fs ts t spawn h1 h2]
        refine ⟨fun h => absurd h (by simp), fun h => ?_⟩
        rcases h with h | h
        · exact absurd h1 h
        · rw [h2] at h
          simp at h
      · have h2f : isdir (argv.getD 1 "") = false := by
          revert h2
          cases isdir (argv.getD 1 "") <;> simp
        unfold main
        rw [if_neg (by omega), if_pos h2f]
        exact ⟨fun _ => Or.inr h2f, fun _ => rfl⟩
    · unfold main
      rw [if_pos h1]
      exact ⟨fun _ => Or.inl h1, fun _ => rfl⟩
  · intro h1 h2
    exact main_valid argv isdir srcPath fs ts t spawn h1 h2

/-- Witness for C7 at concrete inputs: a wrong argument count exits 1; a
valid invocation exits 0 even though every conversion fails. -/
theorem main_exit_behavior_witness :
    (main ["video_to_audio.py"] (fun _ => true) [] (fun _ => false) ""
        (FileTree.node "s" [] []) (fun _ _ => SpawnOutcome.raised "absent")).1 = 1
    ∧ (main ["video_to_audio.py", "clips"] (fun _ => true) ["clips"]
        (fun _ => false) "" (FileTree.node "clips" [] ["a.mp4"])
        (fun _ _ => SpawnOutcome.raised "absent")).1 = 0 :=
  ⟨(main_exit_behavior ["video_to_audio.py"] (fun _ => true) [] (fun _ => false) ""
      (FileTree.node "s" [] []) (fun _ _ => SpawnOutcome.raised "absent")).1.mpr
      (Or.inl (by decide)),
   by rw [(main_exit_behavior ["video_to_audio.py", "clips"] (fun _ => true)
      ["clips"] (fun _ => false) "" (FileTree.node "clips" [] ["a.mp4"])
      (fun _ _ => SpawnOutcome.raised "absent")).2 (by decide) rfl]⟩

end VideoToAudio
